import Mathlib

/-!
Verification of the single-dealer market simulator (`src/app.py`).

The core of the program consists of three classes: `MarketMaker` (price,
inventory and P&L state updated by `adjust_price` / `execute_order`),
`Trader` (strategy-driven order generation via `decide_order`, bookkeeping
via `record_trade`), and `Market` (the step loop `simulate_step`).

Embedding choices:
- Python floats are modelled by `ℚ`; every claimed identity is exact
  (linear) arithmetic, so `ℚ` preserves the algebraic structure of the
  update rules while keeping every definition executable.
- `random.randint(lo, hi)` is modelled by an explicit entropy stream:
  an `Rng` holds a function `Nat → Nat` and a position, and `randint`
  returns `lo + raw % (hi - lo + 1)`, which realises exactly the
  contract of `randint` (a value in `[lo, hi]`, inclusive) and advances
  the position.  The single global Python generator is modelled by
  threading one `Rng` value through the whole simulation.
- Mutation is modelled by explicit state passing: each method returns
  the updated object (and the updated `Rng` where it draws).
-/

/-- Entropy source: a stream of raw natural draws and a current position.
Models Python's global `random` generator, threaded explicitly. -/
structure Rng where
  stream : Nat → Nat
  pos : Nat

/-- Model of `random.randint(lo, hi)`: a draw in `[lo, hi]` (inclusive),
advancing the generator. -/
def randint (lo hi : Int) (g : Rng) : Int × Rng :=
  (lo + ((g.stream g.pos : Int)) % (hi - lo + 1), ⟨g.stream, g.pos + 1⟩)

/-- State of the `MarketMaker` class (`src/app.py`, lines 8-39). -/
structure MarketMaker where
  price : ℚ
  inventory : ℚ
  k : ℚ
  inventory_risk : ℚ
  price_history : List ℚ
  inventory_history : List ℚ
  profit_loss : ℚ
  pnl_history : List ℚ

/-- `MarketMaker.__init__` (all four parameters explicit; the Python
defaults are `100, 0, 0.1, 0.05`). -/
def MarketMaker.init (initial_price inventory k inventory_risk : ℚ) :
    MarketMaker :=
  { price := initial_price
    inventory := inventory
    k := k
    inventory_risk := inventory_risk
    price_history := [initial_price]
    inventory_history := [inventory]
    profit_loss := 0
    pnl_history := [0] }

/-- `MarketMaker.adjust_price`: `price += k*order_size + inventory_risk*inventory`. -/
def MarketMaker.adjust_price (mm : MarketMaker) (order_size : ℚ) :
    MarketMaker :=
  { mm with price := mm.price + (mm.k * order_size + mm.inventory_risk * mm.inventory) }

/-- `MarketMaker.execute_order`: record `prev_price`, adjust the price,
trade at the post-impact price, update inventory and P&L, append to the
three histories. -/
def MarketMaker.execute_order (mm : MarketMaker) (order_size : ℚ) :
    MarketMaker :=
  let prev_price := mm.price
  let mm1 := mm.adjust_price order_size
  let transaction_price := mm1.price
  let new_inventory := mm1.inventory - order_size
  let new_pnl := mm1.profit_loss + (-order_size) * (transaction_price - prev_price)
  { mm1 with
    inventory := new_inventory
    profit_loss := new_pnl
    price_history := mm1.price_history ++ [mm1.price]
    inventory_history := mm1.inventory_history ++ [new_inventory]
    pnl_history := mm1.pnl_history ++ [new_pnl] }

/-- State of the `Trader` class (`src/app.py`, lines 42-64). -/
structure Trader where
  trader_id : Nat
  strategy : String
  order_history : List ℚ
  trade_price_history : List ℚ
  inventory : ℚ

/-- `Trader.__init__` with an explicit strategy argument. -/
def Trader.init (trader_id : Nat) (strategy : String) : Trader :=
  { trader_id := trader_id
    strategy := strategy
    order_history := []
    trade_price_history := []
    inventory := 0 }

/-- `Trader.__init__` with the strategy left at its Python default,
which is the string `"random"`. -/
def Trader.initDefault (trader_id : Nat) : Trader :=
  Trader.init trader_id "random"

/-- The order-size draw of `Trader.decide_order` (the branch on
`self.strategy`), before the append to `order_history`. -/
def Trader.decide_size (t : Trader) (g : Rng) : ℚ × Rng :=
  if t.strategy = "buy" then
    (((randint 1 10 g).1 : ℚ), (randint 1 10 g).2)
  else if t.strategy = "sell" then
    (-((randint 1 10 g).1 : ℚ), (randint 1 10 g).2)
  else if t.strategy = "random" then
    (((randint (-10) 10 g).1 : ℚ), (randint (-10) 10 g).2)
  else
    (0, g)

/-- `Trader.decide_order`: draw the order size, append it to
`order_history`, return it (together with the updated trader and
generator). -/
def Trader.decide_order (t : Trader) (g : Rng) : ℚ × Trader × Rng :=
  ((t.decide_size g).1,
   { t with order_history := t.order_history ++ [(t.decide_size g).1] },
   (t.decide_size g).2)

/-- `Trader.record_trade`: append the price, add the order size to the
trader's inventory. -/
def Trader.record_trade (t : Trader) (order_size price : ℚ) : Trader :=
  { t with
    trade_price_history := t.trade_price_history ++ [price]
    inventory := t.inventory + order_size }

/-- State of the `Market` class (`src/app.py`, lines 67-78). -/
structure Market where
  market_maker : MarketMaker
  traders : List Trader
  time_steps : Nat

/-- The body of the `for trader in self.traders` loop of
`Market.simulate_step`: each trader in turn decides an order, the market
maker executes it, and the trader records the post-execution price. -/
def stepTraders : MarketMaker → List Trader → Rng → MarketMaker × List Trader × Rng
  | mm, [], g => (mm, [], g)
  | mm, t :: ts, g =>
    let d := t.decide_order g
    let mm1 := mm.execute_order d.1
    let t2 := d.2.1.record_trade d.1 mm1.price
    let rest := stepTraders mm1 ts d.2.2
    (rest.1, t2 :: rest.2.1, rest.2.2)

/-- `Market.simulate_step`: increment `time_steps`, then run every trader
in activation order. -/
def Market.simulate_step (m : Market) (g : Rng) : Market × Rng :=
  ((Market.mk (stepTraders m.market_maker m.traders g).1
      (stepTraders m.market_maker m.traders g).2.1
      (m.time_steps + 1)),
   (stepTraders m.market_maker m.traders g).2.2)

/-- Running `N` sequential calls of `simulate_step` (the
`for _ in range(simulation_steps): market.simulate_step()` loop of `main`). -/
def Market.simulate : Market → Rng → Nat → Market × Rng
  | m, g, 0 => (m, g)
  | m, g, n + 1 => Market.simulate (m.simulate_step g).1 (m.simulate_step g).2 n

/-- The market construction performed by `main`: a fresh `MarketMaker`
with inventory 0 and one fresh `Trader` per chosen strategy, ids 1, 2, …. -/
def mkTraders (strats : List String) : List Trader :=
  strats.enum.map (fun p => Trader.init (p.1 + 1) p.2)

/-- A whole market as `main` builds it from the scalar parameters and the
per-trader strategy list. -/
def mkMarket (initial_price k inventory_risk : ℚ) (strats : List String) :
    Market :=
  Market.mk (MarketMaker.init initial_price 0 k inventory_risk)
    (mkTraders strats) 0

/-- Field equations of `execute_order`: new price, inventory, P&L delta,
and the three history appends. -/
theorem execute_order_fields (mm : MarketMaker) (s : ℚ) :
    (mm.execute_order s).price
        = mm.price + mm.k * s + mm.inventory_risk * mm.inventory ∧
    (mm.execute_order s).inventory = mm.inventory - s ∧
    (mm.execute_order s).profit_loss - mm.profit_loss
        = -s * ((mm.execute_order s).price - mm.price) ∧
    (mm.execute_order s).price_history
        = mm.price_history ++ [(mm.execute_order s).price] ∧
    (mm.execute_order s).inventory_history
        = mm.inventory_history ++ [(mm.execute_order s).inventory] ∧
    (mm.execute_order s).pnl_history
        = mm.pnl_history ++ [(mm.execute_order s).profit_loss] := by
  refine ⟨?_, ?_, ?_, ?_, ?_, ?_⟩ <;>
    (simp [MarketMaker.execute_order, MarketMaker.adjust_price]; try ring)

/-- C1: `executeOrder(s)` updates the price to
`price + k*s + inventoryRisk*inventory` (inventory read before the order),
trades at the post-impact price, decrements inventory by `s`, changes the
P&L by `-s * (price_after - price_before)`, and appends the new price,
inventory and cumulative P&L to the three histories. -/
theorem C1_execute_order_spec (mm : MarketMaker) (s : ℚ) :
    (mm.execute_order s).price
        = mm.price + mm.k * s + mm.inventory_risk * mm.inventory ∧
    (mm.execute_order s).inventory = mm.inventory - s ∧
    (mm.execute_order s).profit_loss - mm.profit_loss
        = -s * ((mm.execute_order s).price - mm.price) ∧
    (mm.execute_order s).price_history
        = mm.price_history ++ [(mm.execute_order s).price] ∧
    (mm.execute_order s).inventory_history
        = mm.inventory_history ++ [(mm.execute_order s).inventory] ∧
    (mm.execute_order s).pnl_history
        = mm.pnl_history ++ [(mm.execute_order s).profit_loss] :=
  execute_order_fields mm s

/-- Generator whose raw stream is constant, for concrete runs. -/
def constStream (v : Nat) : Rng := ⟨fun _ => v, 0⟩

/-- The trader loop does nothing on an empty trader list. -/
theorem stepTraders_nil (mm : MarketMaker) (g : Rng) :
    stepTraders mm [] g = (mm, [], g) := rfl

/-- A step of a zero-trader market only increments the step counter. -/
theorem simulate_step_nil (mm : MarketMaker) (n : Nat) (g : Rng) :
    Market.simulate_step ⟨mm, [], n⟩ g = (⟨mm, [], n + 1⟩, g) := rfl

/-- `N` steps of a zero-trader market only add `N` to the step counter. -/
theorem simulate_nil (N : Nat) : ∀ (mm : MarketMaker) (n : Nat) (g : Rng),
    Market.simulate ⟨mm, [], n⟩ g N = (⟨mm, [], n + N⟩, g) := by
  induction N with
  | zero => intro mm n g; rfl
  | succ k ih =>
    intro mm n g
    have h : Market.simulate ⟨mm, [], n⟩ g (k + 1)
        = Market.simulate ⟨mm, [], n + 1⟩ g k := rfl
    rw [h, ih mm (n + 1) g]
    have e : n + 1 + k = n + (k + 1) := by omega
    rw [e]

/-- C9: on a market with an empty trader list, `N` calls of `simulateStep`
leave all three MarketMaker histories at length 1 (just the seed entries)
and set `timeSteps = N`; the loop is a no-op, not an error. -/
theorem C9_zero_traders (p i k r : ℚ) (g : Rng) (N : Nat) :
    (Market.simulate ⟨MarketMaker.init p i k r, [], 0⟩ g N).1.market_maker.price_history.length = 1 ∧
    (Market.simulate ⟨MarketMaker.init p i k r, [], 0⟩ g N).1.market_maker.inventory_history.length = 1 ∧
    (Market.simulate ⟨MarketMaker.init p i k r, [], 0⟩ g N).1.market_maker.pnl_history.length = 1 ∧
    (Market.simulate ⟨MarketMaker.init p i k r, [], 0⟩ g N).1.time_steps = N := by
  rw [simulate_nil N (MarketMaker.init p i k r) 0 g]
  simp [MarketMaker.init]

/-- The scalar fields mirror the last entries of their histories. -/
def lastOk (mm : MarketMaker) : Prop :=
  mm.price_history.getLast? = some mm.price ∧
  mm.inventory_history.getLast? = some mm.inventory ∧
  mm.pnl_history.getLast? = some mm.profit_loss

/-- C10: `price`, `inventory` and `profitLoss` equal the last entries of
`priceHistory`, `inventoryHistory` and `pnlHistory`: the constructor
establishes this and every `executeOrder` call re-establishes it. -/
theorem C10_last_entry_inv :
    (∀ p i k r : ℚ, lastOk (MarketMaker.init p i k r)) ∧
    (∀ (mm : MarketMaker) (s : ℚ), lastOk (mm.execute_order s)) := by
  constructor
  · intro p i k r
    simp [lastOk, MarketMaker.init]
  · intro mm s
    simp [lastOk, MarketMaker.execute_order, MarketMaker.adjust_price]

/-- C3: traders run strictly sequentially in activation order, each
seeing the cumulative impact of the earlier ones — with two traders the
final market maker is the composition of the two orders, the second
decided after the first executed; concretely, buy 5 then sell 5 with
`k = 1/10`, zero inventory risk, price 100 gives the price sequence
`[100, 100.5, 100]`. -/
theorem C3_intra_step_ordering :
    (∀ (mm : MarketMaker) (tA tB : Trader) (n : Nat) (g : Rng),
      (Market.simulate_step ⟨mm, [tA, tB], n⟩ g).1.market_maker
        = (mm.execute_order (tA.decide_order g).1).execute_order
            ((tB.decide_order (tA.decide_order g).2.2).1)) ∧
    (Market.simulate_step
        ⟨MarketMaker.init 100 0 (1/10) 0,
         [Trader.init 1 "buy", Trader.init 2 "sell"], 0⟩
        (constStream 4)).1.market_maker.price_history
      = [100, 201/2, 100] := by
  constructor
  · intro mm tA tB n g
    rfl
  · simp only [Market.simulate_step, stepTraders, Trader.decide_order,
      Trader.decide_size, MarketMaker.execute_order, MarketMaker.adjust_price,
      MarketMaker.init, Trader.init, randint, constStream]
    norm_num
    rw [if_neg (by decide : ¬("sell" = "buy"))]
    norm_num

/-- C8: with the same seed (generator state) and identical construction
parameters, two runs produce identical price, inventory, P&L, order and
trade-price histories — the generator is the only nondeterminism. -/
theorem C8_determinism (p k r : ℚ) (strats : List String) (g1 g2 : Rng)
    (N : Nat) (h : g1 = g2) :
    (Market.simulate (mkMarket p k r strats) g1 N).1.market_maker.price_history
      = (Market.simulate (mkMarket p k r strats) g2 N).1.market_maker.price_history ∧
    (Market.simulate (mkMarket p k r strats) g1 N).1.market_maker.inventory_history
      = (Market.simulate (mkMarket p k r strats) g2 N).1.market_maker.inventory_history ∧
    (Market.simulate (mkMarket p k r strats) g1 N).1.market_maker.pnl_history
      = (Market.simulate (mkMarket p k r strats) g2 N).1.market_maker.pnl_history ∧
    (Market.simulate (mkMarket p k r strats) g1 N).1.traders.map Trader.order_history
      = (Market.simulate (mkMarket p k r strats) g2 N).1.traders.map Trader.order_history ∧
    (Market.simulate (mkMarket p k r strats) g1 N).1.traders.map Trader.trade_price_history
      = (Market.simulate (mkMarket p k r strats) g2 N).1.traders.map Trader.trade_price_history := by
  subst h
  exact ⟨rfl, rfl, rfl, rfl, rfl⟩

/-- Witness for C8 at concrete parameters and one step. -/
theorem C8_determinism_wit :
    (Market.simulate (mkMarket 100 (1/10) (1/20) ["buy"]) (constStream 4) 1).1.market_maker.price_history
      = (Market.simulate (mkMarket 100 (1/10) (1/20) ["buy"]) (constStream 4) 1).1.market_maker.price_history ∧
    (Market.simulate (mkMarket 100 ((1:ℚ)/10) (1/20) ["buy"]) (constStream 4) 1).1.market_maker.inventory_history
      = (Market.simulate (mkMarket 100 (1/10) (1/20) ["buy"]) (constStream 4) 1).1.market_maker.inventory_history ∧
    (Market.simulate (mkMarket 100 (1/10) (1/20) ["buy"]) (constStream 4) 1).1.market_maker.pnl_history
      = (Market.simulate (mkMarket 100 (1/10) (1/20) ["buy"]) (constStream 4) 1).1.market_maker.pnl_history ∧
    (Market.simulate (mkMarket 100 (1/10) (1/20) ["buy"]) (constStream 4) 1).1.traders.map Trader.order_history
      = (Market.simulate (mkMarket 100 (1/10) (1/20) ["buy"]) (constStream 4) 1).1.traders.map Trader.order_history ∧
    (Market.simulate (mkMarket 100 (1/10) (1/20) ["buy"]) (constStream 4) 1).1.traders.map Trader.trade_price_history
      = (Market.simulate (mkMarket 100 (1/10) (1/20) ["buy"]) (constStream 4) 1).1.traders.map Trader.trade_price_history :=
  C8_determinism 100 (1/10) (1/20) ["buy"] (constStream 4) (constStream 4) 1 rfl

/-- `execute_order` grows each of the three histories by one element. -/
theorem execute_order_hist_lens (mm : MarketMaker) (s : ℚ) :
    (mm.execute_order s).price_history.length = mm.price_history.length + 1 ∧
    (mm.execute_order s).inventory_history.length = mm.inventory_history.length + 1 ∧
    (mm.execute_order s).pnl_history.length = mm.pnl_history.length + 1 := by
  refine ⟨?_, ?_, ?_⟩ <;>
    simp [MarketMaker.execute_order, MarketMaker.adjust_price]

/-- One pass over the trader list grows each history by the number of
traders and keeps the trader list length. -/
theorem stepTraders_lens : ∀ (ts : List Trader) (mm : MarketMaker) (g : Rng),
    (stepTraders mm ts g).1.price_history.length
      = mm.price_history.length + ts.length ∧
    (stepTraders mm ts g).1.inventory_history.length
      = mm.inventory_history.length + ts.length ∧
    (stepTraders mm ts g).1.pnl_history.length
      = mm.pnl_history.length + ts.length ∧
    (stepTraders mm ts g).2.1.length = ts.length := by
  intro ts
  induction ts with
  | nil => intro mm g; simp [stepTraders]
  | cons t ts ih =>
    intro mm g
    have hdef : stepTraders mm (t :: ts) g
        = ((stepTraders (mm.execute_order (t.decide_order g).1) ts (t.decide_order g).2.2).1,
           ((t.decide_order g).2.1.record_trade (t.decide_order g).1
              (mm.execute_order (t.decide_order g).1).price)
             :: (stepTraders (mm.execute_order (t.decide_order g).1) ts (t.decide_order g).2.2).2.1,
           (stepTraders (mm.execute_order (t.decide_order g).1) ts (t.decide_order g).2.2).2.2) := rfl
    rw [hdef]
    have h := ih (mm.execute_order (t.decide_order g).1) (t.decide_order g).2.2
    have he := execute_order_hist_lens mm (t.decide_order g).1
    simp only [List.length_cons]
    omega

/-- `N` steps grow each history by `N * (number of traders)` and keep the
trader count. -/
theorem simulate_lens : ∀ (N : Nat) (m : Market) (g : Rng),
    (Market.simulate m g N).1.market_maker.price_history.length
      = m.market_maker.price_history.length + N * m.traders.length ∧
    (Market.simulate m g N).1.market_maker.inventory_history.length
      = m.market_maker.inventory_history.length + N * m.traders.length ∧
    (Market.simulate m g N).1.market_maker.pnl_history.length
      = m.market_maker.pnl_history.length + N * m.traders.length ∧
    (Market.simulate m g N).1.traders.length = m.traders.length := by
  intro N
  induction N with
  | zero => intro m g; simp [Market.simulate]
  | succ k ih =>
    intro m g
    have hstep : Market.simulate m g (k + 1)
        = Market.simulate (m.simulate_step g).1 (m.simulate_step g).2 k := rfl
    rw [hstep]
    have h := ih (m.simulate_step g).1 (m.simulate_step g).2
    have e1 : (m.simulate_step g).1.market_maker
        = (stepTraders m.market_maker m.traders g).1 := rfl
    have e2 : (m.simulate_step g).1.traders
        = (stepTraders m.market_maker m.traders g).2.1 := rfl
    rw [e1, e2] at h
    have hs := stepTraders_lens m.traders m.market_maker g
    rw [hs.2.2.2] at h
    rw [hs.1, hs.2.1, hs.2.2.1] at h
    refine ⟨?_, ?_, ?_, h.2.2.2⟩
    · rw [h.1]; ring
    · rw [h.2.1]; ring
    · rw [h.2.2.1]; ring

/-- C2: from a fresh `MarketMaker`, after `N` steps with `M ≥ 1` traders,
all three histories have length `N*M + 1`; moreover every `executeOrder`
call grows all three histories by exactly one element, so the three
lengths agree at all times. -/
theorem C2_history_lengths (p i k r : ℚ) (ts : List Trader) (g : Rng)
    (N : Nat) (h : 1 ≤ ts.length) :
    (Market.simulate ⟨MarketMaker.init p i k r, ts, 0⟩ g N).1.market_maker.price_history.length
      = N * ts.length + 1 ∧
    (Market.simulate ⟨MarketMaker.init p i k r, ts, 0⟩ g N).1.market_maker.inventory_history.length
      = N * ts.length + 1 ∧
    (Market.simulate ⟨MarketMaker.init p i k r, ts, 0⟩ g N).1.market_maker.pnl_history.length
      = N * ts.length + 1 ∧
    (∀ (mm : MarketMaker) (s : ℚ),
      (mm.execute_order s).price_history.length = mm.price_history.length + 1 ∧
      (mm.execute_order s).inventory_history.length = mm.inventory_history.length + 1 ∧
      (mm.execute_order s).pnl_history.length = mm.pnl_history.length + 1) := by
  have hs := simulate_lens N ⟨MarketMaker.init p i k r, ts, 0⟩ g
  refine ⟨?_, ?_, ?_, execute_order_hist_lens⟩
  · rw [hs.1]; show 1 + N * ts.length = N * ts.length + 1; ring
  · rw [hs.2.1]; show 1 + N * ts.length = N * ts.length + 1; ring
  · rw [hs.2.2.1]; show 1 + N * ts.length = N * ts.length + 1; ring

/-- Witness for C2: one neutral trader, two steps, lengths `2*1 + 1 = 3`. -/
theorem C2_history_lengths_wit :
    (Market.simulate ⟨MarketMaker.init 100 0 (1/10) (1/20),
        [Trader.init 1 "neutral"], 0⟩ (constStream 4) 2).1.market_maker.price_history.length = 3 ∧
    (Market.simulate ⟨MarketMaker.init 100 0 (1/10) (1/20),
        [Trader.init 1 "neutral"], 0⟩ (constStream 4) 2).1.market_maker.inventory_history.length = 3 ∧
    (Market.simulate ⟨MarketMaker.init 100 0 (1/10) (1/20),
        [Trader.init 1 "neutral"], 0⟩ (constStream 4) 2).1.market_maker.pnl_history.length = 3 ∧
    (∀ (mm : MarketMaker) (s : ℚ),
      (mm.execute_order s).price_history.length = mm.price_history.length + 1 ∧
      (mm.execute_order s).inventory_history.length = mm.inventory_history.length + 1 ∧
      (mm.execute_order s).pnl_history.length = mm.pnl_history.length + 1) :=
  C2_history_lengths 100 0 (1/10) (1/20) [Trader.init 1 "neutral"]
    (constStream 4) 2 (by decide)

/-- A trader property preserved by one decide/record round trip is
preserved for every trader across one pass of the trader loop. -/
theorem stepTraders_pred (P : Trader → Prop)
    (hstep : ∀ (t : Trader) (g : Rng) (price : ℚ), P t →
      P (((t.decide_order g).2.1).record_trade (t.decide_order g).1 price)) :
    ∀ (ts : List Trader) (mm : MarketMaker) (g : Rng),
      (∀ t ∈ ts, P t) → ∀ t ∈ (stepTraders mm ts g).2.1, P t := by
  intro ts
  induction ts with
  | nil => intro mm g h t ht; simp [stepTraders] at ht
  | cons a ts ih =>
    intro mm g h t ht
    have hdef : (stepTraders mm (a :: ts) g).2.1
        = (((a.decide_order g).2.1).record_trade (a.decide_order g).1
             (mm.execute_order (a.decide_order g).1).price)
          :: (stepTraders (mm.execute_order (a.decide_order g).1) ts
                (a.decide_order g).2.2).2.1 := rfl
    rw [hdef] at ht
    rcases List.mem_cons.mp ht with h1 | h2
    · rw [h1]
      exact hstep a g _ (h a (List.mem_cons_self a ts))
    · exact ih (mm.execute_order (a.decide_order g).1) (a.decide_order g).2.2
        (fun u hu => h u (List.mem_cons_of_mem a hu)) t h2

/-- A trader property preserved by one decide/record round trip is
preserved for every trader across any number of steps. -/
theorem simulate_pred (P : Trader → Prop)
    (hstep : ∀ (t : Trader) (g : Rng) (price : ℚ), P t →
      P (((t.decide_order g).2.1).record_trade (t.decide_order g).1 price)) :
    ∀ (N : Nat) (m : Market) (g : Rng),
      (∀ t ∈ m.traders, P t) →
      ∀ t ∈ (Market.simulate m g N).1.traders, P t := by
  intro N
  induction N with
  | zero => intro m g h; exact h
  | succ k ih =>
    intro m g h
    have hstep1 : Market.simulate m g (k + 1)
        = Market.simulate (m.simulate_step g).1 (m.simulate_step g).2 k := rfl
    rw [hstep1]
    apply ih
    intro t ht
    have e2 : (m.simulate_step g).1.traders
        = (stepTraders m.market_maker m.traders g).2.1 := rfl
    rw [e2] at ht
    exact stepTraders_pred P hstep m.traders m.market_maker g h t ht

/-- Per-trader bookkeeping invariant: as many recorded trade prices as
decided orders, and the trader's inventory is the sum of its orders. -/
def Trader.consistent (t : Trader) : Prop :=
  t.order_history.length = t.trade_price_history.length ∧
  t.inventory = t.order_history.sum

/-- One decide/record round trip preserves the bookkeeping invariant. -/
theorem step_trader_consistent (t : Trader) (g : Rng) (price : ℚ)
    (h : t.consistent) :
    (((t.decide_order g).2.1).record_trade (t.decide_order g).1 price).consistent := by
  obtain ⟨h1, h2⟩ := h
  constructor
  · show (t.order_history ++ [(t.decide_size g).1]).length
        = (t.trade_price_history ++ [price]).length
    simp [h1]
  · show t.inventory + (t.decide_size g).1
        = (t.order_history ++ [(t.decide_size g).1]).sum
    simp [h2]

/-- C7: a freshly constructed trader satisfies the bookkeeping invariant,
and after any number of completed steps every trader still satisfies it:
`len(orderHistory) = len(tradePriceHistory)` and
`inventory = sum(orderHistory)`. -/
theorem C7_trader_consistency (N : Nat) (m : Market) (g : Rng)
    (h : ∀ t ∈ m.traders, t.consistent) :
    (∀ (tid : Nat) (strat : String), (Trader.init tid strat).consistent) ∧
    (∀ t ∈ (Market.simulate m g N).1.traders, t.consistent) := by
  refine ⟨?_, simulate_pred Trader.consistent step_trader_consistent N m g h⟩
  intro tid strat
  exact ⟨rfl, rfl⟩

/-- Witness for C7: a two-trader market run for one step. -/
theorem C7_trader_consistency_wit :
    (∀ (tid : Nat) (strat : String), (Trader.init tid strat).consistent) ∧
    (∀ t ∈ (Market.simulate (mkMarket 100 (1/10) (1/20) ["buy", "sell"])
        (constStream 4) 1).1.traders, t.consistent) :=
  C7_trader_consistency 1 (mkMarket 100 (1/10) (1/20) ["buy", "sell"])
    (constStream 4)
    (by intro t ht
        have h2 : t ∈ [Trader.init 1 "buy", Trader.init 2 "sell"] := ht
        rcases List.mem_cons.mp h2 with h3 | h4
        · rw [h3]; exact ⟨rfl, rfl⟩
        · rcases List.mem_cons.mp h4 with h5 | h6
          · rw [h5]; exact ⟨rfl, rfl⟩
          · simp at h6)

/-- `randint lo hi` yields a value in `[lo, hi]` whenever `lo ≤ hi`. -/
theorem randint_bounds (lo hi : Int) (g : Rng) (h : lo ≤ hi) :
    lo ≤ (randint lo hi g).1 ∧ (randint lo hi g).1 ≤ hi := by
  have h1 : 0 ≤ ((g.stream g.pos : Int)) % (hi - lo + 1) :=
    Int.emod_nonneg _ (by omega)
  have h2 : ((g.stream g.pos : Int)) % (hi - lo + 1) < hi - lo + 1 :=
    Int.emod_lt_of_pos _ (by omega)
  have e : (randint lo hi g).1
      = lo + ((g.stream g.pos : Int)) % (hi - lo + 1) := rfl
  constructor
  · rw [e]; linarith
  · rw [e]; linarith

/-- `decide_size` on a `"buy"` trader draws from `randint 1 10`. -/
theorem decide_size_buy (t : Trader) (g : Rng) (h : t.strategy = "buy") :
    t.decide_size g = (((randint 1 10 g).1 : ℚ), (randint 1 10 g).2) := by
  unfold Trader.decide_size
  rw [if_pos h]

/-- `decide_size` on a `"sell"` trader negates a `randint 1 10` draw. -/
theorem decide_size_sell (t : Trader) (g : Rng) (h : t.strategy = "sell") :
    t.decide_size g = (-((randint 1 10 g).1 : ℚ), (randint 1 10 g).2) := by
  unfold Trader.decide_size
  rw [if_neg (by rw [h]; decide), if_pos h]

/-- `decide_size` on a `"random"` trader draws from `randint (-10) 10`. -/
theorem decide_size_rand (t : Trader) (g : Rng) (h : t.strategy = "random") :
    t.decide_size g = (((randint (-10) 10 g).1 : ℚ), (randint (-10) 10 g).2) := by
  unfold Trader.decide_size
  rw [if_neg (by rw [h]; decide), if_neg (by rw [h]; decide), if_pos h]

/-- `decide_size` on any other strategy returns 0 without drawing. -/
theorem decide_size_other (t : Trader) (g : Rng) (h1 : ¬t.strategy = "buy")
    (h2 : ¬t.strategy = "sell") (h3 : ¬t.strategy = "random") :
    t.decide_size g = (0, g) := by
  unfold Trader.decide_size
  rw [if_neg h1, if_neg h2, if_neg h3]

/-- Lower bound of a strategy's order-size interval. -/
def stratLo (strat : String) : ℚ :=
  if strat = "buy" then 1
  else if strat = "sell" then -10
  else if strat = "random" then -10
  else 0

/-- Upper bound of a strategy's order-size interval. -/
def stratHi (strat : String) : ℚ :=
  if strat = "buy" then 10
  else if strat = "sell" then -1
  else if strat = "random" then 10
  else 0

/-- Every drawn order size lies in its strategy's interval. -/
theorem decide_size_bound (t : Trader) (g : Rng) :
    stratLo t.strategy ≤ (t.decide_size g).1 ∧
    (t.decide_size g).1 ≤ stratHi t.strategy := by
  by_cases hb : t.strategy = "buy"
  · rw [decide_size_buy t g hb, hb]
    have h := randint_bounds 1 10 g (by decide)
    have h1 : (1 : ℚ) ≤ ((randint 1 10 g).1 : ℚ) := by exact_mod_cast h.1
    have h2 : ((randint 1 10 g).1 : ℚ) ≤ 10 := by exact_mod_cast h.2
    exact ⟨h1, h2⟩
  · by_cases hs : t.strategy = "sell"
    · rw [decide_size_sell t g hs, hs]
      have h := randint_bounds 1 10 g (by decide)
      have h1 : (1 : ℚ) ≤ ((randint 1 10 g).1 : ℚ) := by exact_mod_cast h.1
      have h2 : ((randint 1 10 g).1 : ℚ) ≤ 10 := by exact_mod_cast h.2
      constructor
      · show (-10 : ℚ) ≤ -((randint 1 10 g).1 : ℚ)
        linarith
      · show -((randint 1 10 g).1 : ℚ) ≤ (-1 : ℚ)
        linarith
    · by_cases hr : t.strategy = "random"
      · rw [decide_size_rand t g hr, hr]
        have h := randint_bounds (-10) 10 g (by decide)
        constructor
        · show (-10 : ℚ) ≤ ((randint (-10) 10 g).1 : ℚ)
          exact_mod_cast h.1
        · show ((randint (-10) 10 g).1 : ℚ) ≤ (10 : ℚ)
          exact_mod_cast h.2
      · rw [decide_size_other t g hb hs hr]
        constructor
        · unfold stratLo
          rw [if_neg hb, if_neg hs, if_neg hr]
        · unfold stratHi
          rw [if_neg hb, if_neg hs, if_neg hr]

/-- Every entry of a trader's order history lies in its strategy's
interval. -/
def Trader.boundsOK (t : Trader) : Prop :=
  ∀ x ∈ t.order_history, stratLo t.strategy ≤ x ∧ x ≤ stratHi t.strategy

/-- One decide/record round trip preserves the order-history bounds. -/
theorem step_trader_boundsOK (t : Trader) (g : Rng) (price : ℚ)
    (h : t.boundsOK) :
    (((t.decide_order g).2.1).record_trade (t.decide_order g).1 price).boundsOK := by
  intro x hx
  have hx2 : x ∈ t.order_history ++ [(t.decide_size g).1] := hx
  show stratLo t.strategy ≤ x ∧ x ≤ stratHi t.strategy
  rcases List.mem_append.mp hx2 with h1 | h2
  · exact h x h1
  · rw [List.mem_singleton.mp h2]
    exact decide_size_bound t g

/-- C6: a `"buy"` trader's order is in `[1, 10]`, a `"sell"` trader's in
`[-10, -1]`, a `"random"` trader's in `[-10, 10]`, and across any run
every entry of every trader's `orderHistory` stays in its strategy's
interval. -/
theorem C6_strategy_bounds (t : Trader) (g : Rng) (m : Market) (N : Nat)
    (hm : ∀ u ∈ m.traders, u.boundsOK) :
    (t.strategy = "buy" →
      1 ≤ (t.decide_order g).1 ∧ (t.decide_order g).1 ≤ 10) ∧
    (t.strategy = "sell" →
      -10 ≤ (t.decide_order g).1 ∧ (t.decide_order g).1 ≤ -1) ∧
    (t.strategy = "random" →
      -10 ≤ (t.decide_order g).1 ∧ (t.decide_order g).1 ≤ 10) ∧
    (∀ u ∈ (Market.simulate m g N).1.traders, u.boundsOK) := by
  have hb := decide_size_bound t g
  refine ⟨?_, ?_, ?_,
    simulate_pred Trader.boundsOK step_trader_boundsOK N m g hm⟩
  · intro h
    rw [h] at hb
    have e1 : stratLo "buy" = 1 := by decide
    have e2 : stratHi "buy" = 10 := by decide
    rw [e1, e2] at hb
    exact hb
  · intro h
    rw [h] at hb
    have e1 : stratLo "sell" = -10 := by decide
    have e2 : stratHi "sell" = -1 := by decide
    rw [e1, e2] at hb
    exact hb
  · intro h
    rw [h] at hb
    have e1 : stratLo "random" = -10 := by decide
    have e2 : stratHi "random" = 10 := by decide
    rw [e1, e2] at hb
    exact hb

/-- Witness for C6: a buy trader's draw and a one-step two-trader run. -/
theorem C6_strategy_bounds_wit :
    ((Trader.init 1 "buy").strategy = "buy" →
      1 ≤ ((Trader.init 1 "buy").decide_order (constStream 4)).1 ∧
      ((Trader.init 1 "buy").decide_order (constStream 4)).1 ≤ 10) ∧
    ((Trader.init 1 "buy").strategy = "sell" →
      -10 ≤ ((Trader.init 1 "buy").decide_order (constStream 4)).1 ∧
      ((Trader.init 1 "buy").decide_order (constStream 4)).1 ≤ -1) ∧
    ((Trader.init 1 "buy").strategy = "random" →
      -10 ≤ ((Trader.init 1 "buy").decide_order (constStream 4)).1 ∧
      ((Trader.init 1 "buy").decide_order (constStream 4)).1 ≤ 10) ∧
    (∀ u ∈ (Market.simulate (mkMarket 100 (1/10) (1/20) ["buy", "sell"])
        (constStream 4) 1).1.traders, u.boundsOK) :=
  C6_strategy_bounds (Trader.init 1 "buy") (constStream 4)
    (mkMarket 100 (1/10) (1/20) ["buy", "sell"]) 1
    (by intro u hu
        have h2 : u ∈ [Trader.init 1 "buy", Trader.init 2 "sell"] := hu
        rcases List.mem_cons.mp h2 with h3 | h4
        · rw [h3]; intro x hx; simp [Trader.init] at hx
        · rcases List.mem_cons.mp h4 with h5 | h6
          · rw [h5]; intro x hx; simp [Trader.init] at hx
          · simp at h6)

/-- The first component of `decide_order` is the `decide_size` draw. -/
theorem decide_order_val (t : Trader) (g : Rng) :
    (t.decide_order g).1 = (t.decide_size g).1 := rfl

/-- C4 counterexample: a trader left at its Python default has strategy
`"random"`, and a call to `decide_order` can return a nonzero order size
(here 5, with a raw draw of 15), so the claim that the default strategy
always yields order size 0 is false. -/
theorem C4_default_strategy_cex :
    (Trader.initDefault 1).strategy = "random" ∧
    ((Trader.initDefault 1).decide_order (constStream 15)).1 = 5 ∧
    (5 : ℚ) ≠ 0 := by
  refine ⟨rfl, ?_, by norm_num⟩
  rw [decide_order_val]
  rw [decide_size_rand (Trader.initDefault 1) (constStream 15) rfl]
  show ((randint (-10) 10 (constStream 15)).1 : ℚ) = 5
  norm_num [randint, constStream]

/-- C4 (amended): for every trader whose strategy is outside
`{buy, sell, random}` — which includes `"neutral"` but not the Python
default `"random"` — every `decide_order` call returns 0 and appends
that 0 to `orderHistory`. -/
theorem C4_unknown_strategy_zero (t : Trader) (g : Rng)
    (h1 : t.strategy ≠ "buy") (h2 : t.strategy ≠ "sell")
    (h3 : t.strategy ≠ "random") :
    (t.decide_order g).1 = 0 ∧
    (t.decide_order g).2.1.order_history = t.order_history ++ [0] := by
  have hd := decide_size_other t g h1 h2 h3
  constructor
  · rw [decide_order_val, hd]
  · show t.order_history ++ [(t.decide_size g).1] = t.order_history ++ [0]
    rw [hd]

/-- Witness for C4's amended statement on a `"neutral"` trader. -/
theorem C4_unknown_strategy_zero_wit :
    ((Trader.init 7 "neutral").decide_order (constStream 3)).1 = 0 ∧
    ((Trader.init 7 "neutral").decide_order (constStream 3)).2.1.order_history
      = (Trader.init 7 "neutral").order_history ++ [0] :=
  C4_unknown_strategy_zero (Trader.init 7 "neutral") (constStream 3)
    (by decide) (by decide) (by decide)

/-- One step of a single-trader market whose trader has an unrecognized
strategy: the order is 0, so the inventory is unchanged and the price
moves by exactly `inventory_risk * inventory`. -/
theorem simulate_step_single_unknown (mm : MarketMaker) (tid n : Nat)
    (strat : String) (g : Rng) (h1 : strat ≠ "buy") (h2 : strat ≠ "sell")
    (h3 : strat ≠ "random") :
    (Market.simulate_step ⟨mm, [Trader.init tid strat], n⟩ g).1.market_maker.price
      = mm.price + mm.inventory_risk * mm.inventory ∧
    (Market.simulate_step ⟨mm, [Trader.init tid strat], n⟩ g).1.market_maker.inventory
      = mm.inventory := by
  have hd : (Trader.init tid strat).decide_size g = (0, g) :=
    decide_size_other (Trader.init tid strat) g h1 h2 h3
  have e : (Market.simulate_step ⟨mm, [Trader.init tid strat], n⟩ g).1.market_maker
      = mm.execute_order ((Trader.init tid strat).decide_size g).1 := rfl
  constructor
  · rw [e, hd]
    show (mm.execute_order 0).price = mm.price + mm.inventory_risk * mm.inventory
    rw [(execute_order_fields mm 0).1]
    ring
  · rw [e, hd]
    show (mm.execute_order 0).inventory = mm.inventory
    rw [(execute_order_fields mm 0).2.1]
    ring

/-- C5 counterexample: with `initialInventory = 10` and
`inventoryRisk = 1/20`, one step driven by a sole unknown-strategy trader
moves the price from 100 to 100.5, so the claim that price and inventory
are unchanged for any construction parameters is false. -/
theorem C5_inventory_drift_cex :
    (Market.simulate_step
        ⟨MarketMaker.init 100 10 (1/10) (1/20), [Trader.init 1 "zzz"], 0⟩
        (constStream 0)).1.market_maker.price = 201/2 ∧
    (201 : ℚ)/2 ≠ 100 := by
  have h := simulate_step_single_unknown (MarketMaker.init 100 10 (1/10) (1/20))
    1 0 "zzz" (constStream 0) (by decide) (by decide) (by decide)
  constructor
  · rw [h.1]
    show (100 : ℚ) + 1/20 * 10 = 201/2
    norm_num
  · norm_num

/-- C5 (amended): with a sole unknown-strategy trader, each step leaves
the market maker's inventory unchanged and moves the price by exactly
`inventoryRisk * inventory`; in particular the price is also unchanged
whenever `inventoryRisk * inventory = 0` (e.g. the default
`initialInventory = 0`). -/
theorem C5_unknown_strategy_frame (mm : MarketMaker) (tid n : Nat)
    (strat : String) (g : Rng) (h1 : strat ≠ "buy") (h2 : strat ≠ "sell")
    (h3 : strat ≠ "random") :
    (Market.simulate_step ⟨mm, [Trader.init tid strat], n⟩ g).1.market_maker.inventory
      = mm.inventory ∧
    (Market.simulate_step ⟨mm, [Trader.init tid strat], n⟩ g).1.market_maker.price
      = mm.price + mm.inventory_risk * mm.inventory ∧
    (mm.inventory_risk * mm.inventory = 0 →
      (Market.simulate_step ⟨mm, [Trader.init tid strat], n⟩ g).1.market_maker.price
        = mm.price) := by
  have h := simulate_step_single_unknown mm tid n strat g h1 h2 h3
  exact ⟨h.2, h.1, fun hz => by rw [h.1, hz]; ring⟩

/-- Witness for C5's amended statement: zero-inventory market maker, one
`"zzz"` trader, one step. -/
theorem C5_unknown_strategy_frame_wit :
    (Market.simulate_step
        ⟨MarketMaker.init 100 0 (1/10) (1/20), [Trader.init 1 "zzz"], 0⟩
        (constStream 0)).1.market_maker.inventory
      = (MarketMaker.init 100 0 (1/10) (1/20)).inventory ∧
    (Market.simulate_step
        ⟨MarketMaker.init 100 0 (1/10) (1/20), [Trader.init 1 "zzz"], 0⟩
        (constStream 0)).1.market_maker.price
      = (MarketMaker.init 100 0 (1/10) (1/20)).price
        + (MarketMaker.init 100 0 (1/10) (1/20)).inventory_risk
          * (MarketMaker.init 100 0 (1/10) (1/20)).inventory ∧
    ((MarketMaker.init 100 0 (1/10) (1/20)).inventory_risk
        * (MarketMaker.init 100 0 (1/10) (1/20)).inventory = 0 →
      (Market.simulate_step
          ⟨MarketMaker.init 100 0 (1/10) (1/20), [Trader.init 1 "zzz"], 0⟩
          (constStream 0)).1.market_maker.price
        = (MarketMaker.init 100 0 (1/10) (1/20)).price) :=
  C5_unknown_strategy_frame (MarketMaker.init 100 0 (1/10) (1/20)) 1 0 "zzz"
    (constStream 0) (by decide) (by decide) (by decide)
